import Mathlib

/-! Shallow embedding of `src/dynamic_library.h` (namespaces `internal` and
`utils`).  Wide strings (`std::wstring`) are modelled as `List Char`,
`std::wstring::size_type` / `size_t` as `Nat` with arithmetic taken modulo
`2 ^ 64` where the C++ performs unsigned wraparound, `HMODULE` as
`Option Nat` (`none` is the null handle), and `const char*` symbol names as
`Option (List Char)` (`none` is the null pointer).  The OS surface
(`::GetCurrentDirectory`, `::SetCurrentDirectory`, the load-library API,
`::GetModuleHandle`, `::GetProcAddress`, `::FreeLibrary`) is modelled as an
oracle record `MockOS` plus an explicit event trace of the calls that the
code under verification issues. -/

namespace DynLib

/-- Value of `std::wstring::npos` (`size_t(-1)`) on the 64-bit target. -/
def npos : Nat := 2 ^ 64 - 1

/-- Unsigned `size_t` arithmetic wraps modulo `2 ^ 64`. -/
def w64 (n : Nat) : Nat := n % 2 ^ 64

/-- Embeds `internal::IsSeparator`: the loop over `kSeparators` checks the two
characters `L'\\'` and `L'/'` (the trailing NUL is excluded by
`kSeparatorsLength - 1`). -/
def IsSeparator (c : Char) : Bool := c = '\\' || c = '/'

/-- The ASCII-letter range test that `internal::FindDriveLetter` applies to
`path[0]`. -/
def isDriveLetterChar (c : Char) : Bool :=
  ('A' ≤ c && c ≤ 'Z') || ('a' ≤ c && c ≤ 'z')

/-- Embeds `internal::FindDriveLetter`: returns `1` (the index of the `:`)
when the path starts with `<ascii letter>:`, otherwise `npos`. -/
def FindDriveLetter (path : List Char) : Nat :=
  if 2 ≤ path.length ∧ path.getD 1 ' ' = ':' ∧ isDriveLetterChar (path.getD 0 ' ') = true
  then 1 else npos

/-- Embeds `std::wstring::resize`: truncates, padding with NUL characters when
the requested size exceeds the current length (the padding case is never
reached by the call sites below, but is kept for faithfulness). -/
def resize (path : List Char) (n : Nat) : List Char :=
  path.take n ++ List.replicate (n - path.length) (Char.ofNat 0)

/-- Embeds the `for` loop of `internal::StripTrailingSeparators`: `pos` walks
down from `path.length()` while the preceding character is a separator and
`pos > start`; the body either resizes the string to `pos - 1` (recording
`last_stripped = pos`) or, in the guarded corner case, leaves it untouched.
The loop counter is the structural recursion argument (the source decrements
`pos` by one on every iteration, so `pos + 1` steps to `pos`). -/
def stripLoop (start : Nat) : List Char → Nat → Nat → List Char
  | path, _, 0 => path
  | path, last_stripped, pos + 1 =>
    if start < pos + 1 ∧ IsSeparator (path.getD pos ' ') = true then
      if pos + 1 ≠ w64 (start + 1) ∨ last_stripped = w64 (start + 2) ∨
          ¬IsSeparator (path.getD (start - 1) ' ') = true then
        stripLoop start (resize path pos) (pos + 1) pos
      else
        stripLoop start path last_stripped pos
    else path

/-- Embeds `internal::StripTrailingSeparators`; `start` is
`FindDriveLetter(path) + 2` in `size_t` arithmetic, so `3` with a drive
letter and `npos + 2 = 1` without one. -/
def StripTrailingSeparators (path : List Char) : List Char :=
  stripLoop (w64 (FindDriveLetter path + 2)) path npos path.length


/-- Embeds `path.find_last_of(kSeparators, npos, kSeparatorsLength - 1)`:
the largest index holding `\` or `/`, or `npos` when there is none. -/
def findLastSep : List Char → Nat
  | [] => npos
  | c :: rest =>
    let r := findLastSep rest
    if r = npos then (if IsSeparator c then 0 else npos) else r + 1

/-- Embeds `internal::GetParent`.  `letter` is `1` or `npos`; the branch
arithmetic `letter + 1`, `letter + 2`, `letter + 3` is `size_t` arithmetic, so
without a drive letter it wraps to `0`, `1`, `2` exactly as the source
comment explains. -/
def GetParent (path0 : List Char) : List Char :=
  let path1 := StripTrailingSeparators path0
  let letter := FindDriveLetter path1
  let last_separator := findLastSep path1
  let path2 :=
    if last_separator = npos then
      -- path is in the current directory
      resize path1 (w64 (letter + 1))
    else if last_separator = w64 (letter + 1) then
      -- path is in the root directory
      resize path1 (w64 (letter + 2))
    else if last_separator = w64 (letter + 2) ∧
        IsSeparator (path1.getD (w64 (letter + 1)) ' ') = true then
      -- path is in "//" (possibly with a drive letter)
      resize path1 (w64 (letter + 3))
    else if last_separator ≠ 0 then
      -- path is somewhere else, trim the basename
      resize path1 last_separator
    else path1
  let path3 := StripTrailingSeparators path2
  if path3.length = 0 then ['.'] else path3

/-- Calls that the embedded code issues against the OS, in order. -/
inductive Event where
  | setDir (d : List Char)
  | load (p : List Char)
  | unload (h : Nat)
deriving DecidableEq, Repr

/-- Oracle for the OS primitives the header consumes: the raw result of
`::GetCurrentDirectory` (`none` models `len == 0 || len > MAX_PATH`), the
`LoadLibraryFunction` passed to `LoadNativeLibraryHelper`, `::GetModuleHandle`
and `::GetProcAddress`.  `::SetCurrentDirectory` and `::FreeLibrary` only
produce trace events (their return values are discarded by the header). -/
structure MockOS where
  rawCurrentDir : Option (List Char)
  loadLibraryApi : List Char → Option Nat
  getModuleHandle : List Char → Option Nat
  getProcAddress : Option Nat → List Char → Option Nat

/-- Embeds `internal::GetCurrentDirectory`: on success the buffer contents are
passed through `StripTrailingSeparators` into `*dir`. -/
def GetCurrentDirectoryF (os : MockOS) : Option (List Char) :=
  os.rawCurrentDir.map StripTrailingSeparators

/-- Embeds `internal::LoadNativeLibraryHelper`: captures the current
directory (best effort), redirects it to `GetParent(library_path)` when that
parent is non-empty, invokes the load primitive with the exact path string,
then restores the captured directory when a redirect happened.  Returns the
module handle together with the trace of OS calls issued. -/
def LoadNativeLibraryHelper (os : MockOS) (library_path : List Char) :
    Option Nat × List Event :=
  match GetCurrentDirectoryF os with
  | some current_directory =>
    let plugin_path := GetParent library_path
    if plugin_path ≠ [] then
      (os.loadLibraryApi library_path,
        [Event.setDir plugin_path, Event.load library_path,
         Event.setDir current_directory])
    else
      (os.loadLibraryApi library_path, [Event.load library_path])
  | none => (os.loadLibraryApi library_path, [Event.load library_path])

/-- Embeds `internal::UnloadNativeLibrary`: a no-op on the null handle,
otherwise one `::FreeLibrary` call. -/
def UnloadNativeLibrary : Option Nat → List Event
  | none => []
  | some h => [Event.unload h]

/-- Embeds `internal::WellKnownLibrary`: `false` on the empty name, otherwise
whether `::GetModuleHandle` reports a resident module of that name. -/
def WellKnownLibrary (os : MockOS) (library_name : List Char) : Bool :=
  if library_name.isEmpty then false
  else (os.getModuleHandle library_name).isSome

/-- Embeds the `HMODULE` overload of
`internal::GetFunctionPointerFromNativeLibrary`: null when the symbol name
pointer is null, otherwise a direct `::GetProcAddress` call (there is no
emptiness check on the name). -/
def GetFunctionPointerFromNativeLibraryByHandle (os : MockOS)
    (library : Option Nat) (name : Option (List Char)) : Option Nat :=
  match name with
  | none => none
  | some n => os.getProcAddress library n

/-- Embeds the `std::wstring` overload of
`internal::GetFunctionPointerFromNativeLibrary`: re-looks the resident module
up by name and resolves against that handle. -/
def GetFunctionPointerFromNativeLibraryByName (os : MockOS)
    (library_name : List Char) (name : Option (List Char)) : Option Nat :=
  match name with
  | none => none
  | some n =>
    match os.getModuleHandle library_name with
    | none => none
    | some h => GetFunctionPointerFromNativeLibraryByHandle os (some h) (some n)

/-- Embeds the state of `utils::DynamicLibrary`: the `library_name_` field
(empty unless constructed from a well-known name) and the `library_` handle
(`none` is `nullptr`). -/
structure DynamicLibrary where
  library_name : List Char
  library : Option Nat
deriving DecidableEq, Repr

/-- The default constructor `DynamicLibrary()`. -/
def DynamicLibrary.mkDefault : DynamicLibrary := ⟨[], none⟩

/-- The constructor `DynamicLibrary(const HMODULE&)`. -/
def DynamicLibrary.mkFromHandle (library : Option Nat) : DynamicLibrary :=
  ⟨[], library⟩

/-- The constructor `DynamicLibrary(const std::wstring& path)`: performs the
load through `internal::LoadLibrary`, i.e. `LoadNativeLibraryHelper`. -/
def DynamicLibrary.mkFromPath (os : MockOS) (path : List Char) :
    DynamicLibrary × List Event :=
  let r := LoadNativeLibraryHelper os path
  (⟨[], r.1⟩, r.2)

/-- The constructor `DynamicLibrary(LPCTSTR filename)`: referenced mode, no
load is performed. -/
def DynamicLibrary.mkFromName (filename : List Char) : DynamicLibrary :=
  ⟨filename, none⟩

/-- Embeds `DynamicLibrary::is_valid`: the owned handle is non-null, or the
stored well-known name is resident (re-checked live on each call). -/
def DynamicLibrary.is_valid (os : MockOS) (d : DynamicLibrary) : Bool :=
  d.library.isSome || WellKnownLibrary os d.library_name

/-- Embeds the untyped `DynamicLibrary::GetFunctionPointer(const char*)`. -/
def DynamicLibrary.GetFunctionPointer (os : MockOS) (d : DynamicLibrary)
    (function_name : Option (List Char)) : Option Nat :=
  if ¬ d.is_valid os = true then none
  else if d.library_name.isEmpty then
    GetFunctionPointerFromNativeLibraryByHandle os d.library function_name
  else
    GetFunctionPointerFromNativeLibraryByName os d.library_name function_name

/-- Embeds the typed member template
`DynamicLibrary::GetFunctionPointer<R, P...>(const std::string&)`; the
`reinterpret_cast` preserves the address and its nullness, so it is modelled
as the identity.  Note the source guard is a conjunction:
`if (!is_valid() && InterfaceName.empty()) return nullptr;`.  A
`std::string`'s `c_str()` is never the null pointer, hence `some`. -/
def DynamicLibrary.GetFunctionPointerTyped (os : MockOS) (d : DynamicLibrary)
    (InterfaceName : List Char) : Option Nat :=
  if ¬ d.is_valid os = true ∧ InterfaceName.isEmpty then none
  else d.GetFunctionPointer os (some InterfaceName)

/-- Embeds the free function
`utils::GetFunctionPointer<R, P...>(const HMODULE&, const std::string&)`. -/
def GetFunctionPointerOnHandle (os : MockOS) (library : Option Nat)
    (InterfaceName : List Char) : Option Nat :=
  if library.isNone || InterfaceName.isEmpty then none
  else GetFunctionPointerFromNativeLibraryByHandle os library (some InterfaceName)

/-- Embeds the free function
`utils::GetFunctionPointer<R, P...>(const DynamicLibrary*, const std::string&)`:
null on a null pointer, otherwise the typed member call. -/
def GetFunctionPointerOnPtr (os : MockOS) (library : Option DynamicLibrary)
    (InterfaceName : List Char) : Option Nat :=
  match library with
  | none => none
  | some d => d.GetFunctionPointerTyped os InterfaceName

/-- Embeds the free function
`utils::GetFunctionPointer<R, P...>(const std::weak_ptr<DynamicLibrary>&, ...)`:
`library.lock()` yields `none` when the observed instance no longer exists. -/
def GetFunctionPointerOnWeakPtr (os : MockOS) (library : Option DynamicLibrary)
    (InterfaceName : List Char) : Option Nat :=
  match library with
  | none => none
  | some d => d.GetFunctionPointerTyped os InterfaceName

/-- Embeds `DynamicLibrary::Reset`: unloads the currently owned handle and
adopts the new one.  The source does not touch `library_name_`. -/
def DynamicLibrary.Reset (d : DynamicLibrary) (library : Option Nat) :
    DynamicLibrary × List Event :=
  ({ d with library := library }, UnloadNativeLibrary d.library)

/-- Embeds `DynamicLibrary::Release`: hands the owned handle to the caller and
nulls the field; no OS call is issued. -/
def DynamicLibrary.Release (d : DynamicLibrary) :
    Option Nat × DynamicLibrary × List Event :=
  (d.library, { d with library := none }, [])

/-- Embeds `DynamicLibrary::~DynamicLibrary`: unloads the owned handle if
non-null. -/
def DynamicLibrary.destroy (d : DynamicLibrary) : List Event :=
  UnloadNativeLibrary d.library

/-- The strip boundary of `StripTrailingSeparators path`
(`FindDriveLetter(path) + 2` in `size_t` arithmetic): `3` with a drive
letter, `1` without. -/
def stripStart (path : List Char) : Nat := w64 (FindDriveLetter path + 2)

/-- A root path in the sense of the specification: an optional drive-letter
prefix followed by at most two separator characters and nothing else, the
whole being non-empty (`C:`, `C:\`, `C:\\`, `\`, `\\` and the `/` mixes). -/
def IsRootPath (p : List Char) : Prop :=
  (∃ c seps, isDriveLetterChar c = true ∧ seps.length ≤ 2 ∧
    (∀ s ∈ seps, IsSeparator s = true) ∧ p = c :: ':' :: seps) ∨
  (∃ seps, 1 ≤ seps.length ∧ seps.length ≤ 2 ∧
    (∀ s ∈ seps, IsSeparator s = true) ∧ p = seps)

/-- OS oracle on which module name `k` is resident as handle `5`; the
resident module resolves symbol `f` to address `11`, while handle `3` would
resolve `f` to `22`.  Used to exercise `Reset` on a referenced-mode
instance. -/
def residentOS : MockOS where
  rawCurrentDir := none
  loadLibraryApi := fun _ => none
  getModuleHandle := fun n => if n = ['k'] then some 5 else none
  getProcAddress := fun h n =>
    if h = some 5 ∧ n = ['f'] then some 11
    else if h = some 3 ∧ n = ['f'] then some 22 else none

/-- OS oracle whose symbol resolver returns address `1` for the empty symbol
name on handle `7` — nothing the header does rules this out, since it never
checks the name for emptiness before calling `::GetProcAddress`. -/
def emptyNameOS : MockOS where
  rawCurrentDir := none
  loadLibraryApi := fun _ => none
  getModuleHandle := fun _ => none
  getProcAddress := fun h n => if h = some 7 ∧ n = [] then some 1 else none

/-- OS oracle with current directory `D:\tmp\` (stripped to `D:\tmp` by the
capture) and a load primitive that always fails; for the loader traces. -/
def traceOS : MockOS where
  rawCurrentDir := some ("D:\\tmp\\".toList)
  loadLibraryApi := fun _ => none
  getModuleHandle := fun _ => none
  getProcAddress := fun _ _ => none

/-- OS oracle whose current-directory query fails, with a load primitive
that succeeds on `foo.dll` and a resident module named `m`. -/
def noDirOS : MockOS where
  rawCurrentDir := none
  loadLibraryApi := fun p => if p = "foo.dll".toList then some 9 else none
  getModuleHandle := fun n => if n = ['m'] then some 4 else none
  getProcAddress := fun _ _ => none

/-! Helper lemmas about the embedded path algebra. -/

theorem isSeparator_iff {c : Char} : IsSeparator c = true ↔ c = '\\' ∨ c = '/' := by
  simp [IsSeparator]

theorem separator_ne_colon {c : Char} (h : IsSeparator c = true) : c ≠ ':' := by
  rcases isSeparator_iff.mp h with rfl | rfl <;> decide

theorem not_separator_of_driveLetterChar {c : Char}
    (hc : isDriveLetterChar c = true) : IsSeparator c = false := by
  cases hsep : IsSeparator c
  · rfl
  · rcases isSeparator_iff.mp hsep with rfl | rfl <;> exact absurd hc (by decide)

theorem lt_length_of_isSeparator_getD {path : List Char} {i : Nat}
    (h : IsSeparator (path.getD i ' ') = true) : i < path.length := by
  by_contra hlt
  rw [List.getD_eq_default _ _ (Nat.le_of_not_lt hlt)] at h
  exact absurd h (by decide)

theorem resize_eq_take {path : List Char} {n : Nat} (h : n ≤ path.length) :
    resize path n = path.take n := by
  simp [resize, Nat.sub_eq_zero_of_le h]

theorem getD_take_of_lt {α : Type} {l : List α} {n j : Nat} (h : j < n) (d : α) :
    (l.take n).getD j d = l.getD j d := by
  rw [List.getD_eq_getElem?_getD, List.getD_eq_getElem?_getD,
    List.getElem?_take_of_lt h]

theorem findDriveLetter_eq_one_or_npos (path : List Char) :
    FindDriveLetter path = 1 ∨ FindDriveLetter path = npos := by
  unfold FindDriveLetter
  split <;> simp

theorem findDriveLetter_cons_drive {c : Char} (hc : isDriveLetterChar c = true)
    (rest : List Char) : FindDriveLetter (c :: ':' :: rest) = 1 := by
  simp [FindDriveLetter, hc, List.getD]

theorem findDriveLetter_take {l : List Char} {n : Nat} (hn : 2 ≤ n) :
    FindDriveLetter (l.take n) = FindDriveLetter l := by
  by_cases hl : 2 ≤ l.length
  · unfold FindDriveLetter
    rw [getD_take_of_lt (by omega), getD_take_of_lt (by omega)]
    simp [hn, hl]
  · unfold FindDriveLetter
    have h1 : ¬ 2 ≤ (l.take n).length := by simp; omega
    simp [h1, hl]

theorem stripLoop_take (start : Nat) :
    ∀ pos path last, ∃ k, stripLoop start path last pos = path.take k := by
  intro pos
  induction pos with
  | zero => exact fun path last => ⟨path.length, by simp [stripLoop]⟩
  | succ pos ih =>
    intro path last
    unfold stripLoop
    split
    · split
      · have hb : pos < path.length := lt_length_of_isSeparator_getD (by assumption : _ ∧ _).2
        rw [resize_eq_take (Nat.le_of_lt hb)]
        obtain ⟨k, hk⟩ := ih (path.take pos) (pos + 1)
        exact ⟨min k pos, by rw [hk, List.take_take]⟩
      · exact ih path last
    · exact ⟨path.length, (List.take_length path).symm⟩

theorem stripLoop_length_ge (start : Nat) :
    ∀ pos path last, min start path.length ≤ (stripLoop start path last pos).length := by
  intro pos
  induction pos with
  | zero => intro path last; simp [stripLoop]
  | succ pos ih =>
    intro path last
    unfold stripLoop
    split
    case isTrue h =>
      have hb : pos < path.length := lt_length_of_isSeparator_getD h.2
      split
      · have hrec := ih (resize path pos) (pos + 1)
        have hlen : (resize path pos).length = pos := by
          rw [resize_eq_take (Nat.le_of_lt hb)]
          simp [Nat.min_eq_left (Nat.le_of_lt hb)]
        rw [hlen] at hrec
        refine le_trans ?_ hrec
        have hs : start ≤ pos := Nat.lt_succ_iff.mp h.1
        omega
      · exact ih path last
    case isFalse h => exact Nat.min_le_right _ _

theorem stripLoop_keep (start : Nat) :
    ∀ pos path last j, j < pos → j < path.length →
      IsSeparator (path.getD j ' ') = false →
      j + 1 ≤ (stripLoop start path last pos).length := by
  intro pos
  induction pos with
  | zero => intro path last j hj; omega
  | succ pos ih =>
    intro path last j hj hjl hns
    unfold stripLoop
    split
    case isTrue h =>
      have hb : pos < path.length := lt_length_of_isSeparator_getD h.2
      have hjpos : j ≠ pos := by
        intro he
        subst he
        rw [List.getD_eq_getElem?_getD] at hns
        simp [hns] at h
      have hjlt : j < pos := by omega
      split
      · refine ih (resize path pos) (pos + 1) j hjlt ?_ ?_
        · rw [resize_eq_take (Nat.le_of_lt hb)]
          simp
          omega
        · rw [resize_eq_take (Nat.le_of_lt hb), getD_take_of_lt hjlt]
          exact hns
      · exact ih path last j hjlt hjl hns
    case isFalse h => exact hjl

theorem stripLoop_of_no_sep (start : Nat) (path : List Char) (last pos : Nat)
    (h : ∀ c ∈ path, IsSeparator c = false) :
    stripLoop start path last pos = path := by
  cases pos with
  | zero => rfl
  | succ pos =>
    unfold stripLoop
    split
    case isTrue hc =>
      exfalso
      have hb : pos < path.length := lt_length_of_isSeparator_getD hc.2
      have hm : path.getD pos ' ' ∈ path := by
        rw [List.getD_eq_getElem _ _ hb]
        exact List.getElem_mem hb
      have := h _ hm
      rw [hc.2] at this
      cases this
    case isFalse hc => rfl

theorem strip_of_no_sep {path : List Char}
    (h : ∀ c ∈ path, IsSeparator c = false) :
    StripTrailingSeparators path = path :=
  stripLoop_of_no_sep _ _ _ _ h

theorem findLastSep_of_no_sep {path : List Char}
    (h : ∀ c ∈ path, IsSeparator c = false) : findLastSep path = npos := by
  induction path with
  | nil => rfl
  | cons c rest ih =>
    have h1 : findLastSep rest = npos := ih fun x hx => h x (List.mem_cons_of_mem _ hx)
    simp [findLastSep, h1, h c (List.mem_cons_self _ _)]

theorem findLastSep_spec : ∀ {path : List Char}, findLastSep path ≠ npos →
    findLastSep path < path.length ∧
      IsSeparator (path.getD (findLastSep path) ' ') = true := by
  intro path
  induction path with
  | nil => intro h; exact absurd rfl h
  | cons c rest ih =>
    intro h
    by_cases hr : findLastSep rest = npos
    · by_cases hc : IsSeparator c = true
      · constructor
        · simp [findLastSep, hr, hc]
        · simp [findLastSep, hr, hc, List.getD]
      · exact absurd (by simp [findLastSep, hr, hc]) h
    · obtain ⟨h1, h2⟩ := ih hr
      constructor
      · simp [findLastSep, hr]
        omega
      · simpa [findLastSep, hr, List.getD] using h2

theorem w64_npos_add_one : w64 (npos + 1) = 0 := by decide
theorem w64_npos_add_two : w64 (npos + 2) = 1 := by decide
theorem w64_npos_add_three : w64 (npos + 3) = 2 := by decide
theorem npos_large : ∀ n < 100, n ≠ npos := by decide

theorem strip_isPrefix (path : List Char) :
    StripTrailingSeparators path <+: path := by
  obtain ⟨k, hk⟩ := stripLoop_take (w64 (FindDriveLetter path + 2)) path.length path npos
  unfold StripTrailingSeparators
  rw [hk]
  exact List.take_prefix k path

theorem strip_length_ge (path : List Char) :
    min (stripStart path) path.length ≤ (StripTrailingSeparators path).length :=
  stripLoop_length_ge _ _ _ _

theorem dot_if_empty_ne_nil (l : List Char) :
    (if l.length = 0 then ['.'] else l) ≠ [] := by
  split
  case isTrue h => simp
  case isFalse h => intro hc; exact h (by simp [hc])

theorem getParent_ne_nil (path : List Char) : GetParent path ≠ [] :=
  dot_if_empty_ne_nil _

theorem getParent_of_plain_name {path : List Char}
    (hsep : ∀ c ∈ path, IsSeparator c = false)
    (hdrive : FindDriveLetter path = npos) :
    GetParent path = ['.'] := by
  simp only [GetParent]
  rw [strip_of_no_sep hsep, findLastSep_of_no_sep hsep, hdrive]
  simp [w64_npos_add_one, resize, StripTrailingSeparators, stripLoop]

theorem stripLoop_exit {start : Nat} {path : List Char} {last pos : Nat}
    (h : pos ≤ start) : stripLoop start path last pos = path := by
  cases pos with
  | zero => rfl
  | succ p =>
    unfold stripLoop
    rw [if_neg]
    intro hc
    exact absurd hc.1 (by omega)

theorem stripLoop_skip_once {q : List Char} {m : Nat}
    (hsmall : m + 3 < 2 ^ 64)
    (hm : IsSeparator (q.getD m ' ') = true)
    (hm1 : IsSeparator (q.getD (m - 1) ' ') = true) :
    stripLoop m q npos (m + 1) = q := by
  have hcond : ¬ (m + 1 ≠ w64 (m + 1) ∨ npos = w64 (m + 2) ∨
      ¬ IsSeparator (q.getD (m - 1) ' ') = true) := by
    rintro (hA | hB | hC)
    · exact hA (Nat.mod_eq_of_lt (by omega)).symm
    · unfold npos w64 at hB
      omega
    · exact hC hm1
  unfold stripLoop
  rw [if_pos ⟨Nat.lt_succ_self m, hm⟩, if_neg hcond, stripLoop_exit (Nat.le_refl m)]

theorem strip_keeps_double_lead {path : List Char}
    (h0 : IsSeparator (path.getD 0 ' ') = true)
    (h1 : IsSeparator (path.getD 1 ' ') = true)
    (h2 : path.length ≤ 2 ∨ IsSeparator (path.getD 2 ' ') = false) :
    2 ≤ (StripTrailingSeparators path).length := by
  have hlen : 1 < path.length := lt_length_of_isSeparator_getD h1
  have hns : IsSeparator (path.getD 2 ' ') = false := by
    rcases h2 with h2 | h2
    · cases hh : IsSeparator (path.getD 2 ' ')
      · rfl
      · exact absurd (lt_length_of_isSeparator_getD hh) (by omega)
    · exact h2
  by_cases hl : 2 < path.length
  · have h3 : 3 ≤ (StripTrailingSeparators path).length :=
      stripLoop_keep (w64 (FindDriveLetter path + 2)) path.length path npos 2 hl hl hns
    omega
  · have hlen2 : path.length = 2 := by omega
    obtain ⟨s0, s1, rfl⟩ := List.length_eq_two.mp hlen2
    have h0' : IsSeparator s0 = true := by simpa [List.getD] using h0
    have h1' : IsSeparator s1 = true := by simpa [List.getD] using h1
    rcases isSeparator_iff.mp h0' with rfl | rfl <;>
      rcases isSeparator_iff.mp h1' with rfl | rfl <;> decide

theorem take_two_prefix_of_strip {q : List Char}
    (hlen2 : 2 ≤ (StripTrailingSeparators q).length) :
    q.take 2 <+: StripTrailingSeparators q := by
  obtain ⟨k, hk⟩ := stripLoop_take (w64 (FindDriveLetter q + 2)) q.length q npos
  have hk' : StripTrailingSeparators q = q.take k := hk
  rw [hk'] at hlen2 ⊢
  rw [List.length_take] at hlen2
  have h2k : 2 ≤ k := le_trans hlen2 (Nat.min_le_left _ _)
  have ht : (q.take k).take 2 = q.take 2 := by
    rw [List.take_take, Nat.min_eq_left h2k]
  rw [← ht]
  exact List.take_prefix _ _

/-! Claim theorems. -/

/-- C1 (code-bug demonstration): after constructing a `DynamicLibrary` from
the well-known name `k` and calling `Reset`, the instance does NOT switch to
a pure owned mode, because `Reset` leaves `library_name_` set.  With a null
new handle, `is_valid` still returns `true` because the name is resident; and
with the non-null new handle `3`, `GetFunctionPointer` still resolves through
the resident module `5` (address `11`), not through the adopted handle `3`
(which would give `22`).  This contradicts the claimed owned-mode switch. -/
theorem c1_reset_leaves_referenced_mode_active :
    ((DynamicLibrary.mkFromName ['k']).Reset none).1.is_valid residentOS = true ∧
    ((DynamicLibrary.mkFromName ['k']).Reset (some 3)).1.GetFunctionPointer
      residentOS (some ['f']) = some 11 := by
  decide

/-- C3: whenever the current directory was captured (`hcd`) and the computed
parent is non-empty (`hpar`, i.e. a redirect is applied), the loader emits
`setCurrentDirectory(getParent(path))`, then the load of the exact path
string, then `setCurrentDirectory(<captured original>)` — the trace and the
restore are the same whatever `os.loadLibraryApi` returns, so they hold in
particular when the load fails.  `getParent("C:\plugins\foo.dll")` is
`C:\plugins`. -/
theorem c3_load_redirects_and_restores (os : MockOS) (p cd : List Char)
    (hcd : GetCurrentDirectoryF os = some cd) (hpar : GetParent p ≠ []) :
    (LoadNativeLibraryHelper os p).2 =
      [Event.setDir (GetParent p), Event.load p, Event.setDir cd] ∧
    (LoadNativeLibraryHelper os p).1 = os.loadLibraryApi p ∧
    GetParent "C:\\plugins\\foo.dll".toList = "C:\\plugins".toList := by
  refine ⟨?_, ?_, by decide⟩ <;> simp [LoadNativeLibraryHelper, hcd, hpar]

/-- Witness for C3 at `C:\plugins\foo.dll` on `traceOS`, whose load primitive
always fails (`none`): the directory is redirected to `C:\plugins` before
the failing load and restored to the captured `D:\tmp` afterwards. -/
theorem c3_witness :
    GetCurrentDirectoryF traceOS = some "D:\\tmp".toList ∧
    GetParent "C:\\plugins\\foo.dll".toList ≠ [] ∧
    (LoadNativeLibraryHelper traceOS "C:\\plugins\\foo.dll".toList).1 = none ∧
    (LoadNativeLibraryHelper traceOS "C:\\plugins\\foo.dll".toList).2 =
      [Event.setDir "C:\\plugins".toList,
       Event.load "C:\\plugins\\foo.dll".toList,
       Event.setDir "D:\\tmp".toList] := by
  refine ⟨by decide, by decide, by decide, ?_⟩
  have h := c3_load_redirects_and_restores traceOS "C:\\plugins\\foo.dll".toList
    "D:\\tmp".toList (by decide) (by decide)
  rw [h.1]
  decide

/-- C4 counterexample: on `emptyNameOS` and an owned, valid instance holding
handle `7`, the untyped `GetFunctionPointer` passes the empty (non-null)
symbol name straight to `::GetProcAddress`, which returns address `1` — not
null, contradicting "returns null whenever the name is null or empty".  The
raw-handle free overload DOES return null on the empty name for the same
handle, contradicting "exactly the same failure conditions". -/
theorem c4_counterexample_empty_name_not_null :
    (DynamicLibrary.mkFromHandle (some 7)).GetFunctionPointer emptyNameOS
      (some []) = some 1 ∧
    GetFunctionPointerOnHandle emptyNameOS (some 7) [] = none := by
  decide

/-- C4 (amended): the untyped variant returns null when the name pointer is
null or the instance is invalid (an empty non-null name is passed through to
the OS resolver); the typed member variant agrees exactly with the untyped
one; the raw-handle overload returns null precisely on a null handle or an
empty name and otherwise calls the OS resolver directly; the pointer and
weak-pointer overloads return null on a null/expired observer and otherwise
behave as the typed member variant. -/
theorem c4_resolve_null_conditions (os : MockOS) (d : DynamicLibrary)
    (name : Option (List Char)) (n : List Char) (h : Option Nat) :
    (d.GetFunctionPointer os none = none) ∧
    (d.is_valid os = false → d.GetFunctionPointer os name = none) ∧
    (d.GetFunctionPointerTyped os n = d.GetFunctionPointer os (some n)) ∧
    (GetFunctionPointerOnHandle os none n = none) ∧
    (GetFunctionPointerOnHandle os h [] = none) ∧
    (h.isSome = true → n ≠ [] →
      GetFunctionPointerOnHandle os h n = os.getProcAddress h n) ∧
    (GetFunctionPointerOnPtr os none n = none) ∧
    (GetFunctionPointerOnPtr os (some d) n = d.GetFunctionPointerTyped os n) ∧
    (GetFunctionPointerOnWeakPtr os none n = none) ∧
    (GetFunctionPointerOnWeakPtr os (some d) n = d.GetFunctionPointerTyped os n) := by
  refine ⟨?_, ?_, ?_, ?_, ?_, ?_, rfl, rfl, rfl, rfl⟩
  · unfold DynamicLibrary.GetFunctionPointer
    split
    · rfl
    · split <;> rfl
  · intro hv
    simp [DynamicLibrary.GetFunctionPointer, hv]
  · unfold DynamicLibrary.GetFunctionPointerTyped
    split
    case isTrue hh => simp [DynamicLibrary.GetFunctionPointer, hh.1]
    case isFalse hh => rfl
  · simp [GetFunctionPointerOnHandle]
  · simp [GetFunctionPointerOnHandle]
  · intro h1 h2
    cases h with
    | none => simp at h1
    | some v =>
      cases n with
      | nil => exact absurd rfl h2
      | cons a l => rfl

/-- Witness for C4 (amended) at a default-constructed, invalid instance: its
`resolveSymbol` is null. -/
theorem c4_witness :
    (DynamicLibrary.mkDefault).is_valid emptyNameOS = false ∧
    (DynamicLibrary.mkDefault).GetFunctionPointer emptyNameOS
      (some ['f']) = none := by
  refine ⟨by decide, ?_⟩
  exact (c4_resolve_null_conditions emptyNameOS DynamicLibrary.mkDefault
    (some ['f']) ['f'] none).2.1 (by decide)

/-- C5: `Release` returns the currently owned handle, nulls the internal
handle, performs no OS call itself; afterwards an owned-mode instance
(empty `library_name_`) is invalid, its destruction unloads nothing (in
particular not the released handle), and a referenced-mode instance (built
from a well-known name) releases null, since nothing was ever owned. -/
theorem c5_release_transfers_ownership (os : MockOS) (d : DynamicLibrary)
    (name : List Char) :
    (d.Release.1 = d.library) ∧
    (d.Release.2.1.library = none) ∧
    (d.Release.2.2 = []) ∧
    (d.library_name = [] → d.Release.2.1.is_valid os = false) ∧
    (d.Release.2.1.destroy = []) ∧
    ((DynamicLibrary.mkFromName name).Release.1 = none) := by
  refine ⟨rfl, rfl, rfl, ?_, rfl, rfl⟩
  intro hname
  simp [DynamicLibrary.Release, DynamicLibrary.is_valid, WellKnownLibrary, hname]

/-- Witness for C5 on an owned-mode instance holding handle `6`. -/
theorem c5_witness :
    (DynamicLibrary.mkFromHandle (some 6)).library_name = [] ∧
    (DynamicLibrary.mkFromHandle (some 6)).Release.1 = some 6 ∧
    (DynamicLibrary.mkFromHandle (some 6)).Release.2.1.is_valid noDirOS = false := by
  refine ⟨rfl, ?_, ?_⟩
  · exact (c5_release_transfers_ownership noDirOS (DynamicLibrary.mkFromHandle (some 6)) []).1
  · exact (c5_release_transfers_ownership noDirOS
      (DynamicLibrary.mkFromHandle (some 6)) []).2.2.2.1 rfl

/-- C8: when capturing the current directory fails, the loader performs no
`setCurrentDirectory` call at all — neither redirect nor restore — and still
attempts the OS load with the given path, returning its result. -/
theorem c8_capture_failure_degrades_to_no_redirect (os : MockOS)
    (p : List Char) (h : GetCurrentDirectoryF os = none) :
    LoadNativeLibraryHelper os p = (os.loadLibraryApi p, [Event.load p]) := by
  simp [LoadNativeLibraryHelper, h]

/-- Witness for C8 on `noDirOS`, whose directory query fails but whose load
primitive succeeds on `foo.dll`. -/
theorem c8_witness :
    GetCurrentDirectoryF noDirOS = none ∧
    LoadNativeLibraryHelper noDirOS "foo.dll".toList =
      (some 9, [Event.load "foo.dll".toList]) := by
  refine ⟨by decide, ?_⟩
  rw [c8_capture_failure_degrades_to_no_redirect noDirOS "foo.dll".toList (by decide)]
  decide

/-- C9: `WellKnownLibrary` (the `isResident` of the spec) is false on the
empty name, and on a non-empty name it is true exactly when the OS reports a
module of that name already mapped into the process. -/
theorem c9_wellknown_iff_resident (os : MockOS) (n : List Char) (hn : n ≠ []) :
    WellKnownLibrary os [] = false ∧
    WellKnownLibrary os n = (os.getModuleHandle n).isSome := by
  refine ⟨rfl, ?_⟩
  cases n with
  | nil => exact absurd rfl hn
  | cons a l => rfl

/-- Witness for C9 at the resident name `m` of `noDirOS`. -/
theorem c9_witness :
    (['m'] : List Char) ≠ [] ∧
    WellKnownLibrary noDirOS [] = false ∧
    WellKnownLibrary noDirOS ['m'] = (noDirOS.getModuleHandle ['m']).isSome :=
  ⟨by decide, c9_wellknown_iff_resident noDirOS ['m'] (by decide)⟩

/-- C10: `getParent` never returns the empty string; on a path with no
separator and no drive letter it returns the current-directory marker `.`;
hence whenever the capture succeeds the non-empty-parent guard holds and the
loader always redirects and restores, and for the bare name `foo.dll` the
directory is set to `.` (see the witness). -/
theorem c10_getParent_never_empty (os : MockOS) (p q cd : List Char)
    (hq1 : ∀ ch ∈ q, IsSeparator ch = false)
    (hq2 : FindDriveLetter q = npos)
    (hcd : GetCurrentDirectoryF os = some cd) :
    GetParent p ≠ [] ∧
    GetParent q = ['.'] ∧
    (LoadNativeLibraryHelper os p).2 =
      [Event.setDir (GetParent p), Event.load p, Event.setDir cd] ∧
    GetParent "foo.dll".toList = ['.'] := by
  refine ⟨getParent_ne_nil p, getParent_of_plain_name hq1 hq2, ?_, by decide⟩
  simp [LoadNativeLibraryHelper, hcd, getParent_ne_nil p]

/-- Witness for C10 at the bare file name `foo.dll` on `traceOS`: the
redirect sets the directory to `.` and the restore follows. -/
theorem c10_witness :
    (∀ ch ∈ "foo.dll".toList, IsSeparator ch = false) ∧
    FindDriveLetter "foo.dll".toList = npos ∧
    GetCurrentDirectoryF traceOS = some "D:\\tmp".toList ∧
    GetParent "foo.dll".toList ≠ [] ∧
    (LoadNativeLibraryHelper traceOS "foo.dll".toList).2 =
      [Event.setDir ['.'], Event.load "foo.dll".toList,
       Event.setDir "D:\\tmp".toList] := by
  have h := c10_getParent_never_empty traceOS "foo.dll".toList "foo.dll".toList
    "D:\\tmp".toList (by decide) (by decide) (by decide)
  refine ⟨by decide, by decide, by decide, h.1, ?_⟩
  rw [h.2.2.1]
  decide

/-- C2: the reference values `getParent("C:\a\b") = "C:\a"`,
`getParent("C:\a") = "C:\"`, `getParent("C:foo") = "C:"` (the drive-only
current-directory branch), and idempotence on every root path: an optional
drive-letter prefix followed by at most two separators is a fixed point of
`getParent`. -/
theorem c2_getParent_reference_values_and_root_idempotent :
    GetParent "C:\\a\\b".toList = "C:\\a".toList ∧
    GetParent "C:\\a".toList = "C:\\".toList ∧
    GetParent "C:foo".toList = "C:".toList ∧
    ∀ R : List Char, IsRootPath R → GetParent R = R := by
  refine ⟨by decide, by decide, by decide, ?_⟩
  rintro R (⟨c, seps, hc, hlen, hsep, rfl⟩ | ⟨seps, hlen1, hlen2, hsep, rfl⟩)
  · have h1 : IsSeparator c = false := not_separator_of_driveLetterChar hc
    rcases seps with _ | ⟨s, _ | ⟨t, _ | ⟨u, rest⟩⟩⟩
    · simp +decide [GetParent, StripTrailingSeparators, stripLoop, findLastSep,
        resize, findDriveLetter_cons_drive hc, h1, npos, w64, List.getD]
    · rcases isSeparator_iff.mp (hsep s (by simp)) with rfl | rfl <;>
        simp +decide [GetParent, StripTrailingSeparators, stripLoop, findLastSep,
          resize, findDriveLetter_cons_drive hc, h1, npos, w64, List.getD]
    · rcases isSeparator_iff.mp (hsep s (by simp)) with rfl | rfl <;>
        rcases isSeparator_iff.mp (hsep t (by simp)) with rfl | rfl <;>
        simp +decide [GetParent, StripTrailingSeparators, stripLoop, findLastSep,
          resize, findDriveLetter_cons_drive hc, h1, npos, w64, List.getD]
    · simp at hlen
  · rcases R with _ | ⟨s, _ | ⟨t, _ | ⟨u, rest⟩⟩⟩
    · simp at hlen1
    · rcases isSeparator_iff.mp (hsep s (by simp)) with rfl | rfl <;> decide
    · rcases isSeparator_iff.mp (hsep s (by simp)) with rfl | rfl <;>
        rcases isSeparator_iff.mp (hsep t (by simp)) with rfl | rfl <;> decide
    · simp at hlen2

/-- Witness for C2 at the root path `C:\`. -/
theorem c2_witness :
    IsRootPath "C:\\".toList ∧ GetParent "C:\\".toList = "C:\\".toList := by
  have hroot : IsRootPath "C:\\".toList :=
    Or.inl ⟨'C', ['\\'], by decide, by decide, by decide, rfl⟩
  exact ⟨hroot,
    (c2_getParent_reference_values_and_root_idempotent).2.2.2 _ hroot⟩

/-- C6: `stripTrailingSeparators` only ever removes characters from the tail
(the result is a prefix of the input) and never strips below the start
boundary (drive-letter end + 2 in `size_t` arithmetic, i.e. 3 with a drive
letter and 1 without); it keeps both separators of a UNC-style start (two
leading separators followed by non-separator content, witnessed by the first
two characters surviving); a drive letter followed by a single root
separator is untouched; and on the non-root path `C:\a\b\\` it is loss-less,
returning `C:\a\b`. -/
theorem c6_stripTrailingSeparators_boundaries (path q : List Char) (c s : Char)
    (hc : isDriveLetterChar c = true) (hs : IsSeparator s = true)
    (h0 : IsSeparator (q.getD 0 ' ') = true)
    (h1 : IsSeparator (q.getD 1 ' ') = true)
    (h2 : q.length ≤ 2 ∨ IsSeparator (q.getD 2 ' ') = false) :
    (StripTrailingSeparators path <+: path) ∧
    (min (stripStart path) path.length ≤ (StripTrailingSeparators path).length) ∧
    (q.take 2 <+: StripTrailingSeparators q) ∧
    (StripTrailingSeparators [c, ':', s] = [c, ':', s]) ∧
    (StripTrailingSeparators "C:\\a\\b\\\\".toList = "C:\\a\\b".toList) := by
  refine ⟨strip_isPrefix path, strip_length_ge path,
    take_two_prefix_of_strip (strip_keeps_double_lead h0 h1 h2), ?_, by decide⟩
  have h1' : IsSeparator c = false := not_separator_of_driveLetterChar hc
  rcases isSeparator_iff.mp hs with rfl | rfl <;>
    simp +decide [StripTrailingSeparators, stripLoop, findDriveLetter_cons_drive hc,
      npos, w64, List.getD]

/-- Witness for C6 with the UNC-style path `\\a`, drive letter `C` and
separator `\`. -/
theorem c6_witness :
    isDriveLetterChar 'C' = true ∧
    IsSeparator '\\' = true ∧
    IsSeparator ("\\\\a".toList.getD 0 ' ') = true ∧
    IsSeparator ("\\\\a".toList.getD 1 ' ') = true ∧
    IsSeparator ("\\\\a".toList.getD 2 ' ') = false ∧
    ("\\\\a".toList.take 2 <+: StripTrailingSeparators "\\\\a".toList) ∧
    StripTrailingSeparators ['C', ':', '\\'] = ['C', ':', '\\'] := by
  have h := c6_stripTrailingSeparators_boundaries "x".toList "\\\\a".toList 'C' '\\'
    (by decide) (by decide) (by decide) (by decide) (Or.inr (by decide))
  exact ⟨by decide, by decide, by decide, by decide, by decide, h.2.2.1, h.2.2.2.1⟩

/-- C7: `getParent("\\server\share")` is `\\server`, keeping the leading
double separator; and in general, when the last separator of the stripped
path sits at drive-letter-end + 2 (in `size_t` arithmetic) and the character
at drive-letter-end + 1 is also a separator, the result is exactly the
stripped path truncated at drive-letter-end + 3 — the drive letter (if any)
plus the two separators of the alternate-root marker, which the second
stripping pass leaves intact. -/
theorem c7_unc_double_separator_preserved (p : List Char)
    (hlast : findLastSep (StripTrailingSeparators p) =
      w64 (FindDriveLetter (StripTrailingSeparators p) + 2))
    (hsep : IsSeparator ((StripTrailingSeparators p).getD
      (w64 (FindDriveLetter (StripTrailingSeparators p) + 1)) ' ') = true) :
    GetParent "\\\\server\\share".toList = "\\\\server".toList ∧
    (GetParent "\\\\server\\share".toList).take 2 = ['\\', '\\'] ∧
    GetParent p = (StripTrailingSeparators p).take
      (w64 (FindDriveLetter (StripTrailingSeparators p) + 3)) := by
  refine ⟨by decide, by decide, ?_⟩
  simp only [GetParent]
  set p1 := StripTrailingSeparators p
  rcases findDriveLetter_eq_one_or_npos p1 with hL | hL
  · rw [hL] at hlast hsep ⊢
    rw [show w64 (1 + 2) = 3 by decide] at hlast ⊢
    rw [show w64 (1 + 1) = 2 by decide] at hsep ⊢
    rw [show w64 (1 + 3) = 4 by decide]
    have hne : findLastSep p1 ≠ npos := by rw [hlast]; decide
    obtain ⟨hlt, hs3⟩ := findLastSep_spec hne
    rw [hlast] at hlt hs3
    have h4le : 4 ≤ p1.length := hlt
    have hfl4 : FindDriveLetter (p1.take 4) = 1 := by
      rw [findDriveLetter_take (by norm_num : (2 : Nat) ≤ 4)]
      exact hL
    have hq3 : IsSeparator ((p1.take 4).getD 3 ' ') = true := by
      rw [getD_take_of_lt (by norm_num)]
      exact hs3
    have hq2 : IsSeparator ((p1.take 4).getD 2 ' ') = true := by
      rw [getD_take_of_lt (by norm_num)]
      exact hsep
    have hlen4 : (p1.take 4).length = 4 := by
      rw [List.length_take]
      omega
    have hstr : StripTrailingSeparators (p1.take 4) = p1.take 4 := by
      unfold StripTrailingSeparators
      rw [hfl4, hlen4, show w64 (1 + 2) = 3 by decide]
      exact stripLoop_skip_once (by decide) hq3 hq2
    rw [hlast, if_neg (by decide : ¬ (3 : Nat) = npos),
      if_neg (by decide : ¬ (3 : Nat) = 2),
      if_pos (⟨rfl, hsep⟩ : (3 : Nat) = 3 ∧ _),
      resize_eq_take h4le, hstr, if_neg (by omega)]
  · rw [hL] at hlast hsep ⊢
    rw [w64_npos_add_two] at hlast ⊢
    rw [w64_npos_add_one] at hsep ⊢
    rw [w64_npos_add_three]
    have hne : findLastSep p1 ≠ npos := by rw [hlast]; decide
    obtain ⟨hlt, hs1⟩ := findLastSep_spec hne
    rw [hlast] at hlt hs1
    have h2le : 2 ≤ p1.length := hlt
    have hfl2 : FindDriveLetter (p1.take 2) = npos := by
      rw [findDriveLetter_take (by norm_num : (2 : Nat) ≤ 2)]
      exact hL
    have hq1 : IsSeparator ((p1.take 2).getD 1 ' ') = true := by
      rw [getD_take_of_lt (by norm_num)]
      exact hs1
    have hq0 : IsSeparator ((p1.take 2).getD 0 ' ') = true := by
      rw [getD_take_of_lt (by norm_num)]
      exact hsep
    have hlen2 : (p1.take 2).length = 2 := by
      rw [List.length_take]
      omega
    have hstr : StripTrailingSeparators (p1.take 2) = p1.take 2 := by
      unfold StripTrailingSeparators
      rw [hfl2, hlen2, w64_npos_add_two]
      exact stripLoop_skip_once (by decide) hq1 hq0
    rw [hlast, if_neg (by decide : ¬ (1 : Nat) = npos),
      if_neg (by decide : ¬ (1 : Nat) = 0),
      if_pos (⟨rfl, hsep⟩ : (1 : Nat) = 1 ∧ _),
      resize_eq_take h2le, hstr, if_neg (by omega)]

/-- Witness for C7 at `\\x`: the stripped path is `\\x` itself, its last
separator is at index `1 = npos + 2 (mod 2^64)` with index `0` also a
separator, and the parent is `\\`. -/
theorem c7_witness :
    findLastSep (StripTrailingSeparators "\\\\x".toList) =
      w64 (FindDriveLetter (StripTrailingSeparators "\\\\x".toList) + 2) ∧
    IsSeparator ((StripTrailingSeparators "\\\\x".toList).getD
      (w64 (FindDriveLetter (StripTrailingSeparators "\\\\x".toList) + 1)) ' ') = true ∧
    GetParent "\\\\x".toList = (StripTrailingSeparators "\\\\x".toList).take
      (w64 (FindDriveLetter (StripTrailingSeparators "\\\\x".toList) + 3)) ∧
    GetParent "\\\\x".toList = ['\\', '\\'] := by
  refine ⟨by decide, by decide, ?_, by decide⟩
  exact (c7_unc_double_separator_preserved "\\\\x".toList (by decide) (by decide)).2.2

end DynLib
